import Mathlib

/-!
Verification of the word-filtering utilities in `src/main.py`.

Words are modelled as lists of characters (Python strings are sequences of
code points, and `len` counts code points).  Python sets are modelled as
`Finset`s over words.  Each query function of the source iterates over the
set, tests a boolean predicate on every word, and collects the matches;
this is embedded as a `Finset.filter` whose predicate is the literal
translation of the loop body.
-/

abbrev Word : Type := List Char

/-- Python `w.startswith(p)` on code-point lists: `p` is an initial segment
of `w`. -/
def py_startswith : List Char → List Char → Bool
  | [], _ => true
  | _ :: _, [] => false
  | a :: s, b :: t => a == b && py_startswith s t

/-- Python `w.endswith(s)`: `s` is a final segment of `w`, computed on the
reversed lists. -/
def py_endswith (s w : List Char) : Bool :=
  py_startswith s.reverse w.reverse

/-- Python `s in w` for strings: `s` occurs contiguously in `w`.  Scans the
word left to right, testing `s` against every tail. -/
def py_contains (s : List Char) : List Char → Bool
  | [] => py_startswith s []
  | c :: t => py_startswith s (c :: t) || py_contains s t

/-- Python whitespace test used by `str.strip` (ASCII whitespace, which is
all the corpus can contain). -/
def py_isspace (c : Char) : Bool :=
  c == ' ' || c == '\t' || c == '\n' || c == '\r' || c == '\x0b' || c == '\x0c'

/-- Python `s.lstrip()`: drop leading whitespace. -/
def py_lstrip (w : Word) : Word :=
  w.dropWhile py_isspace

/-- Python `s.rstrip()`: drop trailing whitespace. -/
def py_rstrip (w : Word) : Word :=
  (w.reverse.dropWhile py_isspace).reverse

/-- Python `s.strip()`: drop whitespace at both ends. -/
def py_strip (w : Word) : Word :=
  py_lstrip (py_rstrip w)

/-- Python `line.rstrip("\n")`: drop trailing newline characters. -/
def py_rstrip_nl (w : Word) : Word :=
  (w.reverse.dropWhile (fun c => c == '\n')).reverse

/-- Embeds `read_data` of `src/main.py`.  The file is represented by the
list of lines `readlines` produces (each line still carrying its trailing
newline, except possibly the last); every line is rstripped of newlines and
then stripped of surrounding whitespace, in file order. -/
def read_data (lines : List Word) : List Word :=
  lines.map (fun line => py_strip (py_rstrip_nl line))

/-- Embeds `ensemble_mots` of `src/main.py`: fold the word list produced by
`read_data` into a set, inserting one word at a time. -/
def ensemble_mots (lines : List Word) : Finset Word :=
  (read_data lines).foldl (fun res elt => insert elt res) ∅

/-- Embeds `mots_de_n_lettres` of `src/main.py`: the subset of `mots` whose
length is exactly `n`. -/
def mots_de_n_lettres (mots : Finset Word) (n : Int) : Finset Word :=
  mots.filter (fun mot => decide ((mot.length : Int) = n))

/-- Embeds `mots_avec` of `src/main.py`: the subset of `mots` containing
the string `s`. -/
def mots_avec (mots : Finset Word) (s : Word) : Finset Word :=
  mots.filter (fun mot => py_contains s mot)

/-- Embeds `cherche1` of `src/main.py`: the subset of `mots` starting with
`start`, ending with `stop`, of length exactly `n`. -/
def cherche1 (mots : Finset Word) (start stop : Word) (n : Int) : Finset Word :=
  mots.filter (fun mot =>
    py_startswith start mot && py_endswith stop mot && decide ((mot.length : Int) = n))

/-- Loop body of `cherche2`: the flag `bo` survives all four tests exactly
when the length is in range, some element of `lstart` is a prefix, some
element of `lstop` is a suffix, and every element of `lmid` occurs in the
word. -/
def cherche2_pred (lstart lmid lstop : List Word) (nmin nmax : Int) (mot : Word) : Bool :=
  decide (nmin ≤ (mot.length : Int) ∧ (mot.length : Int) ≤ nmax) &&
  lstart.any (fun p => py_startswith p mot) &&
  lstop.any (fun s => py_endswith s mot) &&
  lmid.all (fun m => py_contains m mot)

/-- Embeds `cherche2` of `src/main.py`: returns the empty set at once when
any of the three option lists is empty, otherwise filters by
`cherche2_pred`. -/
def cherche2 (mots : Finset Word) (lstart lmid lstop : List Word)
    (nmin nmax : Int) : Finset Word :=
  if lstart.isEmpty || lmid.isEmpty || lstop.isEmpty then ∅
  else mots.filter (fun mot => cherche2_pred lstart lmid lstop nmin nmax mot)

/-! Concrete corpus from the documented scenario: a file whose lines are
`chat`, `chien`, `chacal`, `chaton`, each terminated by a newline. -/

def w_chat : Word := ['c', 'h', 'a', 't']

def w_chien : Word := ['c', 'h', 'i', 'e', 'n']

def w_chacal : Word := ['c', 'h', 'a', 'c', 'a', 'l']

def w_chaton : Word := ['c', 'h', 'a', 't', 'o', 'n']

def corpus4 : List Word :=
  [w_chat ++ ['\n'], w_chien ++ ['\n'], w_chacal ++ ['\n'], w_chaton ++ ['\n']]

/-- A two-line file whose raw lines are distinct (` chat` and `chat`) but
collapse to the same word once stripped. -/
def lines_dup : List Word :=
  [[' ', 'c', 'h', 'a', 't', '\n'], ['c', 'h', 'a', 't', '\n']]

/-! Characterizations of the boolean string predicates. -/

theorem py_startswith_iff (p w : List Char) :
    py_startswith p w = true ↔ ∃ t, w = p ++ t := by
  induction p generalizing w with
  | nil => simp [py_startswith]
  | cons a s ih =>
    cases w with
    | nil => simp [py_startswith]
    | cons b t =>
      simp only [py_startswith, Bool.and_eq_true, beq_iff_eq, ih, List.cons_append]
      constructor
      · rintro ⟨rfl, u, rfl⟩
        exact ⟨u, rfl⟩
      · rintro ⟨u, h⟩
        obtain ⟨h1, h2⟩ := List.cons.injEq .. ▸ h
        exact ⟨h1.symm, u, h2⟩

theorem py_endswith_iff (s w : List Char) :
    py_endswith s w = true ↔ ∃ t, w = t ++ s := by
  unfold py_endswith
  rw [py_startswith_iff]
  constructor
  · rintro ⟨t, h⟩
    refine ⟨t.reverse, ?_⟩
    have h' := congrArg List.reverse h
    simp only [List.reverse_reverse, List.reverse_append] at h'
    simpa using h'
  · rintro ⟨t, rfl⟩
    exact ⟨t.reverse, by simp⟩

theorem py_contains_iff (s w : List Char) :
    py_contains s w = true ↔ ∃ t u, w = t ++ s ++ u := by
  induction w with
  | nil =>
    simp only [py_contains, py_startswith_iff]
    constructor
    · rintro ⟨t, h⟩
      exact ⟨[], t, h⟩
    · rintro ⟨t, u, h⟩
      cases t with
      | nil => exact ⟨u, h⟩
      | cons a b => simp at h
  | cons c t ih =>
    simp only [py_contains, Bool.or_eq_true, py_startswith_iff, ih]
    constructor
    · rintro (⟨u, h⟩ | ⟨a, b, rfl⟩)
      · exact ⟨[], u, by simpa using h⟩
      · exact ⟨c :: a, b, by simp⟩
    · rintro ⟨a, b, h⟩
      cases a with
      | nil => exact Or.inl ⟨b, by simpa using h⟩
      | cons d a' =>
        right
        obtain ⟨h1, h2⟩ := List.cons.injEq .. ▸ h
        exact ⟨a', b, h2⟩

/-! Helper lemmas. -/

theorem foldl_insert_eq_union (l : List Word) (s : Finset Word) :
    l.foldl (fun res elt => insert elt res) s = s ∪ l.toFinset := by
  induction l generalizing s with
  | nil => simp
  | cons a t ih =>
    rw [List.foldl_cons, ih, List.toFinset_cons]
    ext x
    simp only [Finset.mem_union, Finset.mem_insert, List.mem_toFinset]
    tauto

theorem ensemble_mots_eq_toFinset (lines : List Word) :
    ensemble_mots lines = (read_data lines).toFinset := by
  rw [ensemble_mots, foldl_insert_eq_union]
  simp

/-! Claim theorems. -/

/-- C1: for non-empty option lists, a word `w` of `mots` is in
`cherche2 mots lstart lmid lstop nmin nmax` iff its length lies in
`[nmin, nmax]`, some element of `lstart` is a prefix of `w`, some element
of `lstop` is a suffix of `w`, and every element of `lmid` occurs in `w`
as a contiguous substring. -/
theorem C1_cherche2_mem_iff (mots : Finset Word) (lstart lmid lstop : List Word)
    (nmin nmax : Int) (w : Word)
    (h1 : lstart ≠ []) (h2 : lmid ≠ []) (h3 : lstop ≠ []) (hw : w ∈ mots) :
    w ∈ cherche2 mots lstart lmid lstop nmin nmax ↔
      ((nmin ≤ (w.length : Int) ∧ (w.length : Int) ≤ nmax) ∧
       (∃ p ∈ lstart, ∃ t, w = p ++ t) ∧
       (∃ s ∈ lstop, ∃ t, w = t ++ s) ∧
       (∀ m ∈ lmid, ∃ t u, w = t ++ m ++ u)) := by
  rw [cherche2, if_neg]
  · simp only [Finset.mem_filter, hw, true_and, cherche2_pred, Bool.and_eq_true,
      decide_eq_true_eq, List.any_eq_true, List.all_eq_true,
      py_startswith_iff, py_endswith_iff, py_contains_iff]
    tauto
  · simp only [Bool.or_eq_true, List.isEmpty_iff, not_or]
    exact ⟨⟨h1, h2⟩, h3⟩

/-- C1 witness: the characterization applied to `chat` in the concrete
four-word corpus. -/
theorem C1_cherche2_mem_iff_witness :
    w_chat ∈ cherche2 (ensemble_mots corpus4) [['c']] [['a']] [['t'], ['l']] 4 6 ↔
      ((4 ≤ (w_chat.length : Int) ∧ (w_chat.length : Int) ≤ 6) ∧
       (∃ p ∈ [['c']], ∃ t, w_chat = p ++ t) ∧
       (∃ s ∈ [['t'], ['l']], ∃ t, w_chat = t ++ s) ∧
       (∀ m ∈ [['a']], ∃ t u, w_chat = t ++ m ++ u)) :=
  C1_cherche2_mem_iff (ensemble_mots corpus4) [['c']] [['a']] [['t'], ['l']] 4 6 w_chat
    (by decide) (by decide) (by decide) (by decide)

/-- C2 counterexample: on the documented four-word corpus,
`cherche2` with start options `["c"]`, required substrings `["a"]`,
stop options `["t","l"]` and length range `[4,6]` does NOT return
`{chat, chacal, chaton}`: `chaton` ends in `n`, which is neither `t`
nor `l`. -/
theorem C2_scenario_counterexample :
    cherche2 (ensemble_mots corpus4) [['c']] [['a']] [['t'], ['l']] 4 6 ≠
      {w_chat, w_chacal, w_chaton} := by
  decide

/-- C2 amended: on the documented four-word corpus, `cherche2` with those
parameters returns exactly `{chat, chacal}`. -/
theorem C2_scenario_amended :
    cherche2 (ensemble_mots corpus4) [['c']] [['a']] [['t'], ['l']] 4 6 =
      {w_chat, w_chacal} := by
  decide

/-- C3: if any of the three option lists is empty, `cherche2` returns the
empty set, whatever the other parameters are. -/
theorem C3_cherche2_empty_options (mots : Finset Word) (lstart lmid lstop : List Word)
    (nmin nmax : Int) (h : lstart = [] ∨ lmid = [] ∨ lstop = []) :
    cherche2 mots lstart lmid lstop nmin nmax = ∅ := by
  rw [cherche2, if_pos]
  rcases h with rfl | rfl | rfl <;> simp

/-- C3 witness: an empty start-option list on the concrete corpus. -/
theorem C3_cherche2_empty_options_witness :
    cherche2 (ensemble_mots corpus4) [] [['a']] [['t']] 4 6 = ∅ :=
  C3_cherche2_empty_options (ensemble_mots corpus4) [] [['a']] [['t']] 4 6 (Or.inl rfl)

/-- C4: every query operation returns a subset of its input collection. -/
theorem C4_queries_subset (mots : Finset Word) (n nmin nmax : Int) (s start stop : Word)
    (lstart lmid lstop : List Word) :
    mots_de_n_lettres mots n ⊆ mots ∧ mots_avec mots s ⊆ mots ∧
    cherche1 mots start stop n ⊆ mots ∧
    cherche2 mots lstart lmid lstop nmin nmax ⊆ mots := by
  refine ⟨Finset.filter_subset _ _, Finset.filter_subset _ _, Finset.filter_subset _ _, ?_⟩
  rw [cherche2]
  split
  · exact Finset.empty_subset _
  · exact Finset.filter_subset _ _

/-- C4 witness: the subset property at the concrete corpus and sample
parameters. -/
theorem C4_queries_subset_witness :
    mots_de_n_lettres (ensemble_mots corpus4) 4 ⊆ ensemble_mots corpus4 ∧
    mots_avec (ensemble_mots corpus4) ['a'] ⊆ ensemble_mots corpus4 ∧
    cherche1 (ensemble_mots corpus4) ['c'] ['t'] 4 ⊆ ensemble_mots corpus4 ∧
    cherche2 (ensemble_mots corpus4) [['c']] [['a']] [['t']] 4 6 ⊆ ensemble_mots corpus4 :=
  C4_queries_subset (ensemble_mots corpus4) 4 4 6 ['a'] ['c'] ['t'] [['c']] [['a']] [['t']]

/-- C5 counterexample: a file whose two raw lines ` chat` and `chat` are
distinct (no duplicate lines), yet the loaded list has 2 entries and the
set only 1, because stripping collapses the two lines to the same word. -/
theorem C5_dedup_counterexample :
    lines_dup.Nodup ∧ (ensemble_mots lines_dup).card ≠ (read_data lines_dup).length := by
  decide

/-- C5 amended: the set built by `ensemble_mots` never has more elements
than the list built by `read_data`, with equality whenever the processed
word list (lines after newline/whitespace stripping) has no duplicates. -/
theorem C5_dedup_amended (lines : List Word) :
    (ensemble_mots lines).card ≤ (read_data lines).length ∧
    ((read_data lines).Nodup → (ensemble_mots lines).card = (read_data lines).length) := by
  rw [ensemble_mots_eq_toFinset]
  exact ⟨(read_data lines).toFinset_card_le, fun h => List.toFinset_card_of_nodup h⟩

/-- C5 witness: both parts at the duplicate-free four-word corpus. -/
theorem C5_dedup_amended_witness :
    (ensemble_mots corpus4).card ≤ (read_data corpus4).length ∧
    (ensemble_mots corpus4).card = (read_data corpus4).length :=
  ⟨(C5_dedup_amended corpus4).1, (C5_dedup_amended corpus4).2 (by decide)⟩

/-- C6: every word returned by `cherche1` has length exactly `n`, begins
with `start` and ends with `stop`; and if `start` or `stop` is longer than
`n`, the result is empty. -/
theorem C6_cherche1_sound (mots : Finset Word) (start stop : Word) (n : Int) :
    (∀ w ∈ cherche1 mots start stop n,
      (w.length : Int) = n ∧ (∃ t, w = start ++ t) ∧ (∃ t, w = t ++ stop)) ∧
    (((start.length : Int) > n ∨ (stop.length : Int) > n) →
      cherche1 mots start stop n = ∅) := by
  have key : ∀ w ∈ cherche1 mots start stop n,
      (w.length : Int) = n ∧ (∃ t, w = start ++ t) ∧ (∃ t, w = t ++ stop) := by
    intro w hw
    rw [cherche1, Finset.mem_filter] at hw
    obtain ⟨-, hpred⟩ := hw
    simp only [Bool.and_eq_true, decide_eq_true_eq,
      py_startswith_iff, py_endswith_iff] at hpred
    exact ⟨hpred.2, hpred.1.1, hpred.1.2⟩
  refine ⟨key, ?_⟩
  intro h
  rw [Finset.eq_empty_iff_forall_not_mem]
  intro w hw
  obtain ⟨hlen, ⟨t1, h1⟩, ⟨t2, h2⟩⟩ := key w hw
  rcases h with h | h
  · have hw1 : w.length = start.length + t1.length := by rw [h1]; simp
    omega
  · have hw2 : w.length = t2.length + stop.length := by rw [h2]; simp
    omega

/-- C6 witness: the soundness part at `chacal` for query
`cherche1 corpus "cha" "" 6`, and the emptiness part for a 7-letter
start string with `n = 6`. -/
theorem C6_cherche1_sound_witness :
    ((w_chacal.length : Int) = 6 ∧ (∃ t, w_chacal = ['c', 'h', 'a'] ++ t) ∧
      (∃ t, w_chacal = t ++ [])) ∧
    cherche1 (ensemble_mots corpus4) ['c', 'h', 'a', 'c', 'a', 'l', 's'] [] 6 = ∅ :=
  ⟨(C6_cherche1_sound (ensemble_mots corpus4) ['c', 'h', 'a'] [] 6).1 w_chacal (by decide),
   (C6_cherche1_sound (ensemble_mots corpus4) ['c', 'h', 'a', 'c', 'a', 'l', 's'] [] 6).2
     (Or.inl (by decide))⟩

/-- C7: every word returned by `mots_avec mots s` contains `s` as a
contiguous substring, and the empty string keeps the whole set. -/
theorem C7_mots_avec_sound (mots : Finset Word) (s : Word) :
    (∀ w ∈ mots_avec mots s, ∃ t u, w = t ++ s ++ u) ∧ mots_avec mots [] = mots := by
  constructor
  · intro w hw
    rw [mots_avec, Finset.mem_filter] at hw
    exact (py_contains_iff s w).1 hw.2
  · rw [mots_avec]
    apply Finset.filter_true_of_mem
    intro w _
    exact (py_contains_iff [] w).2 ⟨[], w, by simp⟩

/-- C7 witness: `chat` contains `ha`, and the empty substring keeps the
four-word corpus. -/
theorem C7_mots_avec_sound_witness :
    (∃ t u, w_chat = t ++ ['h', 'a'] ++ u) ∧
    mots_avec (ensemble_mots corpus4) [] = ensemble_mots corpus4 :=
  ⟨(C7_mots_avec_sound (ensemble_mots corpus4) ['h', 'a']).1 w_chat (by decide),
   (C7_mots_avec_sound (ensemble_mots corpus4) []).2⟩

/-- C8: for `w` in `mots` and non-negative `n`, `w` is in
`mots_de_n_lettres mots n` iff its length is exactly `n`; at `n = 0` only
the empty word qualifies, and the result is empty when `mots` has no empty
word. -/
theorem C8_mots_de_n_lettres_mem_iff (mots : Finset Word) (n : Int) (w : Word)
    (_hn : 0 ≤ n) (hw : w ∈ mots) :
    (w ∈ mots_de_n_lettres mots n ↔ (w.length : Int) = n) ∧
    (w ∈ mots_de_n_lettres mots 0 ↔ w = []) ∧
    ([] ∉ mots → mots_de_n_lettres mots 0 = ∅) := by
  refine ⟨?_, ?_, ?_⟩
  · simp [mots_de_n_lettres, Finset.mem_filter, hw]
  · simp only [mots_de_n_lettres, Finset.mem_filter, hw, true_and, decide_eq_true_eq,
      Nat.cast_eq_zero, List.length_eq_zero]
  · intro h
    rw [Finset.eq_empty_iff_forall_not_mem]
    intro x hx
    rw [mots_de_n_lettres, Finset.mem_filter] at hx
    obtain ⟨hx1, hx2⟩ := hx
    rw [decide_eq_true_eq, Nat.cast_eq_zero, List.length_eq_zero] at hx2
    exact h (hx2 ▸ hx1)

/-- C8 witness: the characterization applied to `chat` at length 4 in the
concrete corpus. -/
theorem C8_mots_de_n_lettres_mem_iff_witness :
    (w_chat ∈ mots_de_n_lettres (ensemble_mots corpus4) 4 ↔ (w_chat.length : Int) = 4) ∧
    (w_chat ∈ mots_de_n_lettres (ensemble_mots corpus4) 0 ↔ w_chat = []) ∧
    ([] ∉ ensemble_mots corpus4 → mots_de_n_lettres (ensemble_mots corpus4) 0 = ∅) :=
  C8_mots_de_n_lettres_mem_iff (ensemble_mots corpus4) 4 w_chat (by decide) (by decide)

/-- C9: with empty start and stop strings, `cherche1` coincides with
`mots_de_n_lettres`. -/
theorem C9_cherche1_no_affixes (mots : Finset Word) (n : Int) :
    cherche1 mots [] [] n = mots_de_n_lettres mots n := by
  rw [cherche1, mots_de_n_lettres]
  apply Finset.filter_congr
  intro w _
  simp [py_startswith, py_endswith]

/-- C10: `mots_avec` is idempotent: filtering twice by the same substring
equals filtering once. -/
theorem C10_mots_avec_idem (mots : Finset Word) (s : Word) :
    mots_avec (mots_avec mots s) s = mots_avec mots s := by
  ext w
  simp only [mots_avec, Finset.mem_filter]
  tauto
